import Mathlib

/-!
# Verification of the flagrouter signature-resolution and option-binding core

This file is a shallow embedding of `flagrouter.go` (package `flagrouter`):
the tag metadata parser (`parseTag`), the default coercion engine
(`parseDefault`), the argument binder (`parseField` / `parseOptions` /
`parseFuncArgs`) and the signature resolver (`parseMiddleware` /
`parseMiddlewareFast` / `parseFunc` / `parseFuncFast`), together with
theorems settling the frozen claims about this code.

Modelling conventions:
* Go strings are Lean `String`s; tag metadata is modelled at the character
  level, which coincides with Go's byte level on ASCII tag strings.
* Go's `reflect` types are the inductive `GoRType` (function/struct shapes,
  used by the resolver) and `GoTy` (field kinds, used by the coercion
  engine).  Named Go types carry their fully qualified name; Go type
  identity is structural equality of the model, and Go func-type
  convertibility is equality of underlying types (the named wrapper
  erased), exactly reflect's rule for the checks this code performs.
* The external engine (`github.com/eachain/flags`) is modelled at its
  interface boundary: `FlagSet.AnyVar` appends a `Registration` to an
  engine state (a `List Registration`); wrapper values produced by the
  resolver are trace-producing functions so that "invokes the callable
  once, then the continuation once" is directly observable.
* Machine integers are `Int`/`Nat`; Go's integer conversion to a width-`w`
  type is reduction modulo `2^w` (`Int.bmod` for signed kinds).
* Fallible Go code returns `Except`/`Option`; a `reflect` panic is the
  `Res.panics` outcome.
-/

namespace Flagrouter

/-! ## String helpers (models of `strings.Split`, `strings.TrimSpace`) -/

/-- Splits a character list at every occurrence of the character `sep`,
keeping empty segments, as Go's `strings.Split` does for a one-character
separator. -/
def splitByChar (sep : Char) : List Char → List (List Char)
  | [] => [[]]
  | c :: cs =>
    if c = sep then [] :: splitByChar sep cs
    else
      match splitByChar sep cs with
      | [] => [[c]]
      | h :: t => (c :: h) :: t

/-- Model of Go `strings.Split(s, sep)`.  Every separator this code ever
passes is a single character (the defaults `","`, `":"`, `";"` or a
one-character tag override), so only that case is given semantics. -/
def goSplit (s : String) (sep : String) : List String :=
  match sep.toList with
  | [c] => (splitByChar c s.toList).map (fun l => String.mk l)
  | _ => [s]

/-- ASCII whitespace recognizer used by the `goTrim` model of
`strings.TrimSpace`. -/
def isSpaceChar (c : Char) : Bool :=
  c = ' ' || c = '\t' || c = '\n' || c = '\x0b' || c = '\x0c' || c = '\r'

/-- Model of Go `strings.TrimSpace`: drops leading and trailing
whitespace. -/
def goTrim (s : String) : String :=
  String.mk (((s.toList.dropWhile isSpaceChar).reverse.dropWhile isSpaceChar).reverse)

/-! ## The data model: field kinds, values, errors -/

/-- The structural kinds of option-field types that `parseDefault`
dispatches on (`flagrouter.go:562-641`).  `int`/`uint` carry the declared
width in bits (8, 16, 32 or 64; plain `int`/`uint` are 64-bit here). -/
inductive GoTy where
  | int (w : Nat)
  | uint (w : Nat)
  | float (w : Nat)
  | boolTy
  | stringTy
  | duration
  | datetime
  | slice (elem : GoTy)
  | mapTy (key val : GoTy)
  | otherKind
deriving DecidableEq, Repr

/-- Values produced by the default coercion engine.  `floatV` stores the
simplified decimal model (mantissa and decimal-fraction length) of the
float parser; `timeV` keeps the accepted literal. -/
inductive GoVal where
  | intV (n : Int)
  | uintV (n : Nat)
  | floatV (num : Int) (frac : Nat)
  | boolV (b : Bool)
  | strV (s : String)
  | durV (ns : Int)
  | timeV (s : String)
  | listV (xs : List GoVal)
  | mapV (entries : List (GoVal × GoVal))

/-- Registration-time errors of the binder and resolver
(the `errors.New`/`fmt.Errorf` values in `flagrouter.go`). -/
inductive GoErr where
  | invalidShortTag (tag : String)
  | malformedDefault (lit : String)
  | malformedKeyValue (elem : String)
  | unsupportedTy (t : GoTy)
  | argNotStruct (who : String)
  | userParseFailed (msg : String)
  | mwNotFunc
  | mwReturns
  | mwTooManyArgs
  | mwBadHandlerArg
  | mwFirstNotCtx
  | mwThirdBad
  | hNotFunc
  | hReturns
  | hTooManyArgs
  | hFirstNotCtx
deriving DecidableEq, Repr

/-! ## Scalar literal parsers (models of `strconv` and `time` parsing) -/

/-- Accumulates decimal digits; fails on a non-digit. -/
def digitsAux : List Char → Nat → Option Nat
  | [], acc => some acc
  | c :: cs, acc =>
    if c.isDigit then digitsAux cs (acc * 10 + (c.toNat - '0'.toNat))
    else none

/-- Splits an optional leading sign off a literal: (negative?, rest). -/
def splitSign : List Char → Bool × List Char
  | '+' :: rest => (false, rest)
  | '-' :: rest => (true, rest)
  | cs => (false, cs)

/-- Model of `strconv.ParseInt(s, 10, 64)`: optional sign, decimal digits,
64-bit range check.  Syntax and range failures both surface as the
malformed-default error, matching how `parseTag` treats any `strconv`
error. -/
def parseInt64 (s : String) : Except GoErr Int :=
  let p := splitSign s.toList
  match p.2 with
  | [] => .error (.malformedDefault s)
  | ds =>
    match digitsAux ds 0 with
    | none => .error (.malformedDefault s)
    | some n =>
      let v : Int := if p.1 then -(n : Int) else (n : Int)
      if v < -(2 ^ 63) || v > 2 ^ 63 - 1 then .error (.malformedDefault s)
      else .ok v

/-- Model of `strconv.ParseUint(s, 10, 64)`: no sign permitted, decimal
digits, 64-bit range check. -/
def parseUint64 (s : String) : Except GoErr Nat :=
  match s.toList with
  | [] => .error (.malformedDefault s)
  | ds =>
    match digitsAux ds 0 with
    | none => .error (.malformedDefault s)
    | some n =>
      if n ≥ 2 ^ 64 then .error (.malformedDefault s) else .ok n

/-- Model of `strconv.ParseBool`: the canonical true/false literal forms. -/
def parseGoBool (s : String) : Except GoErr Bool :=
  match s with
  | "1" | "t" | "T" | "true" | "TRUE" | "True" => .ok true
  | "0" | "f" | "F" | "false" | "FALSE" | "False" => .ok false
  | _ => .error (.malformedDefault s)

/-- Simplified model of `strconv.ParseFloat(s, 64)`: optional sign,
decimal digits with an optional fractional part.  (Exponents, hex floats
and inf/NaN are omitted; no claim depends on them.) -/
def parseFloat64 (s : String) : Except GoErr GoVal :=
  let p := splitSign s.toList
  match splitByChar '.' p.2 with
  | [ip] =>
    match digitsAux ip 0 with
    | some n => if ip = [] then .error (.malformedDefault s)
                else .ok (.floatV (if p.1 then -(n : Int) else n) 0)
    | none => .error (.malformedDefault s)
  | [ip, fp] =>
    if ip = [] ∧ fp = [] then .error (.malformedDefault s)
    else
      match digitsAux ip 0, digitsAux fp 0 with
      | some ni, some nf =>
        let m : Int := ni * 10 ^ fp.length + nf
        .ok (.floatV (if p.1 then -m else m) fp.length)
      | _, _ => .error (.malformedDefault s)
  | _ => .error (.malformedDefault s)

/-- Nanosecond multiplier of a duration unit suffix, used by the
`time.ParseDuration` model. -/
def durUnitMult : List Char → Option Nat
  | ['n', 's'] => some 1
  | ['u', 's'] => some 1000
  | ['m', 's'] => some 1000000
  | ['s'] => some 1000000000
  | ['m'] => some 60000000000
  | ['h'] => some 3600000000000
  | _ => none

/-- Splits a duration literal into leading digits and the rest. -/
def spanDigits : List Char → List Char × List Char
  | [] => ([], [])
  | c :: cs =>
    if c.isDigit then
      let p := spanDigits cs
      (c :: p.1, p.2)
    else ([], c :: cs)

/-- Simplified model of `time.ParseDuration`: an optional sign, decimal
digits, and exactly one unit suffix (`ns`, `us`, `ms`, `s`, `m`, `h`).
(Fractions and multi-component literals are omitted; no claim depends on
them.) -/
def parseGoDuration (s : String) : Except GoErr GoVal :=
  let p := splitSign s.toList
  let q := spanDigits p.2
  match q.1, durUnitMult q.2 with
  | [], _ => .error (.malformedDefault s)
  | _, none => .error (.malformedDefault s)
  | ds, some mult =>
    match digitsAux ds 0 with
    | none => .error (.malformedDefault s)
    | some n =>
      let v : Int := (n : Int) * mult
      .ok (.durV (if p.1 then -v else v))

/-- Simplified model of `time.ParseInLocation(flags.DateTime, s, Local)`
with the engine's `YYYY-MM-DDThh:mm:ss` layout: the shape is checked and
the accepted literal kept. -/
def parseGoDateTime (s : String) : Except GoErr GoVal :=
  match s.toList with
  | [y1, y2, y3, y4, '-', m1, m2, '-', d1, d2, 'T', h1, h2, ':', n1, n2, ':', s1, s2] =>
    if [y1, y2, y3, y4, m1, m2, d1, d2, h1, h2, n1, n2, s1, s2].all Char.isDigit then
      .ok (.timeV s)
    else .error (.malformedDefault s)
  | _ => .error (.malformedDefault s)

/-! ## Value conversion and map primitives (models of `reflect` operations) -/

/-- Model of Go's `reflect.Value.Convert` for the conversions this code
performs: converting a 64-bit parsed integer to the declared integer kind
reduces it modulo `2^w` (`Int.bmod` picks the signed representative for
signed kinds); every other conversion performed here is between a value
and its own type and is the identity. -/
def convertVal (v : GoVal) (t : GoTy) : GoVal :=
  match v, t with
  | .intV n, .int w => .intV (Int.bmod n (2 ^ w))
  | .intV n, .uint w => .uintV (Int.toNat (n % (2 ^ w : Int)))
  | .uintV n, .int w => .intV (Int.bmod (n : Int) (2 ^ w))
  | .uintV n, .uint w => .uintV (n % 2 ^ w)
  | v, _ => v

/-- Go map keys are always comparable scalar kinds (slices and maps cannot
be keys), so key equality compares scalar values. -/
def goKeyEq : GoVal → GoVal → Bool
  | .intV a, .intV b => a == b
  | .uintV a, .uintV b => a == b
  | .floatV a b, .floatV c d => a == c && b == d
  | .boolV a, .boolV b => a == b
  | .strV a, .strV b => a == b
  | .durV a, .durV b => a == b
  | .timeV a, .timeV b => a == b
  | _, _ => false

/-- Model of `reflect.Value.MapIndex` on the assoc-list map model. -/
def mapLook : List (GoVal × GoVal) → GoVal → Option GoVal
  | [], _ => none
  | e :: rest, k => if goKeyEq e.1 k then some e.2 else mapLook rest k

/-- Model of `reflect.Value.SetMapIndex`: replaces the entry of an
existing key in place, otherwise appends a new entry. -/
def mapSet : List (GoVal × GoVal) → GoVal → GoVal → List (GoVal × GoVal)
  | [], k, v => [(k, v)]
  | e :: rest, k, v =>
    if goKeyEq e.1 k then (e.1, v) :: rest else e :: mapSet rest k v

/-- Model of `reflect.AppendSlice`. -/
def appendSliceVal : GoVal → GoVal → GoVal
  | .listV a, .listV b => .listV (a ++ b)
  | a, _ => a

/-- Whether a field kind is a slice kind (`reflect.Kind() == reflect.Slice`). -/
def isSliceKind : GoTy → Bool
  | .slice _ => true
  | _ => false

/-- Whether a field kind is a map kind (`reflect.Kind() == reflect.Map`). -/
def isMapKind : GoTy → Bool
  | .mapTy _ _ => true
  | _ => false

/-- Separator selection of `parseDefault` (`flagrouter.go:583-592,606-613`):
use the `i`-th override when it is present and nonempty, else the
default. -/
def pickSep (sep : List String) (i : Nat) (dflt : String) : String :=
  match sep[i]? with
  | some s => if s = "" then dflt else s
  | none => dflt

/-- One map-entry store of `parseDefault`'s map branch
(`flagrouter.go:629-637`): when the value type is a slice and the key is
already present, the new slice is appended to the stored one
(`reflect.AppendSlice`); otherwise the entry is stored, overwriting any
previous one. -/
def mapDefaultStep (vt : GoTy) (m : List (GoVal × GoVal)) (k v : GoVal) :
    List (GoVal × GoVal) :=
  if isSliceKind vt then
    match mapLook m k with
    | some ori => mapSet m k (appendSliceVal ori v)
    | none => mapSet m k v
  else mapSet m k v

/-! ## The default coercion engine (`parseDefault`, `flagrouter.go:545-641`) -/

/-- The user-extensible parse-from-text capability: for each type, either
no hook (the type does not implement `flags.Parser` on its pointer
receiver) or the text-parsing function the type provides.  This is the
shallow embedding of `reflect.PointerTo(typ).Implements(typParser)`
followed by `ParseFlag`. -/
def ParserHook : Type :=
  GoTy → Option (String → Except GoErr GoVal)

/-- The hook environment in which no field type implements the
parse-from-text capability. -/
def noHook : ParserHook := fun _ => none

/-- The default coercion engine (`parseDefault`, `flagrouter.go:545-641`):
the user hook first, then the fixed duration/date-time types, then
dispatch on structural kind, recursing through slices and maps with the
separator overrides `sep`. -/
def parseDefault (hook : ParserHook) (typ : GoTy) (dft : String)
    (sep : List String) : Except GoErr GoVal :=
  match hook typ with
  | some p => p dft
  | none =>
    match typ with
    | .duration => parseGoDuration dft
    | .datetime => parseGoDateTime dft
    | .int _ => (parseInt64 dft).map GoVal.intV
    | .uint _ => (parseUint64 dft).map GoVal.uintV
    | .float _ => parseFloat64 dft
    | .boolTy => (parseGoBool dft).map GoVal.boolV
    | .stringTy => .ok (.strV dft)
    | .otherKind => .error (.unsupportedTy .otherKind)
    | .slice elemTyp =>
      let seperator :=
        if isMapKind elemTyp then pickSep sep 2 ";" else pickSep sep 0 ","
      ((goSplit dft seperator).mapM (fun elem =>
          (parseDefault hook elemTyp (goTrim elem) sep).map
            (fun v => convertVal v elemTyp))).map GoVal.listV
    | .mapTy kt vt =>
      let sepElem := pickSep sep 0 ","
      let sepKV := pickSep sep 1 ":"
      ((goSplit dft sepElem).foldlM (fun m elem =>
          match goSplit elem sepKV with
          | [k0, v0] => do
            let key ← parseDefault hook kt (goTrim k0) sep
            let val ← parseDefault hook vt (goTrim v0) sep
            pure (mapDefaultStep vt m (convertVal key kt) (convertVal val vt))
          | _ => .error (.malformedKeyValue elem))
        ([] : List (GoVal × GoVal))).map GoVal.mapV

/-! ## Struct fields and the tag metadata parser (`parseTag`, `flagrouter.go:508-537`) -/

/-- A field descriptor of an options record: name, exportedness, declared
type, and the raw annotation strings.  `tagDft` is an `Option` because
`Tag.Lookup("dft")` distinguishes an absent annotation from a present but
empty one; the other annotations are read with `Tag.Get`, which returns
`""` in both cases. -/
structure StructField where
  name : String
  exported : Bool
  typ : GoTy
  tagShort : String := ""
  tagLong : String := ""
  tagSep : String := ""
  tagDft : Option String := none
  tagDesc : String := ""

/-- The tag metadata `parseTag` extracts from one field: short identifier
(as a character code, `0` when absent), long identifier, coerced default,
the present-flag of the `dft` annotation, description, and separator
overrides. -/
structure TagInfo where
  short : Nat
  long : String
  dft : Option GoVal
  zeroDft : Bool
  desc : String
  sep : List String

/-- Character code of the first character of a tag string (`tagShort[0]`),
`0` on the empty string. -/
def firstCharCode (s : String) : Nat :=
  match s.toList with
  | [] => 0
  | c :: _ => c.toNat

/-- The tag metadata parser (`parseTag`, `flagrouter.go:508-537`): the
short annotation must be at most one character; the separator annotation
is trimmed and split into single-character overrides; a nonempty default
annotation is coerced by `parseDefault`. -/
def parseTag (hook : ParserHook) (f : StructField) : Except GoErr TagInfo :=
  if f.tagShort ≠ "" ∧ f.tagShort.length > 1 then
    .error (.invalidShortTag f.tagShort)
  else
    let short := if f.tagShort = "" then 0 else firstCharCode f.tagShort
    let sep :=
      if goTrim f.tagSep = "" then ([] : List String)
      else (goTrim f.tagSep).toList.map (fun c => String.mk [c])
    match f.tagDft with
    | none =>
      .ok ⟨short, f.tagLong, none, false, f.tagDesc, sep⟩
    | some td =>
      if td = "" then
        .ok ⟨short, f.tagLong, none, true, f.tagDesc, sep⟩
      else
        match parseDefault hook f.typ td sep with
        | .error e => .error e
        | .ok v => .ok ⟨short, f.tagLong, some v, true, f.tagDesc, sep⟩

/-! ## The argument binder (`parseField`/`parseOptions`/`parseFuncArgs`,
`flagrouter.go:444-506`) -/

/-- One bound option stored by the external engine: the model of one
`FlagSet.AnyVar` call (`flagrouter.go:504`) with the field's address
identified by the field name. -/
structure Registration where
  fieldName : String
  short : Nat
  long : String
  dft : Option GoVal
  desc : String
  sliceSep : Option String
  kvSep : Option String
  zeroDft : Bool

/-- The binder for one field (`parseField`, `flagrouter.go:479-506`),
threaded through the engine state: unexported fields are skipped before
tag parsing; fields whose parsed tag has neither identifier are skipped
after it; otherwise the default is converted to the field's declared type
and the field is registered with the engine. -/
def parseField (hook : ParserHook) (st : List Registration) (f : StructField) :
    List Registration × Option GoErr :=
  if !f.exported then (st, none)
  else
    match parseTag hook f with
    | .error e => (st, some e)
    | .ok t =>
      if t.short = 0 ∧ t.long = "" then (st, none)
      else
        let dft := t.dft.map (fun v => convertVal v f.typ)
        (st ++ [{ fieldName := f.name, short := t.short, long := t.long,
                  dft := dft, desc := t.desc, sliceSep := t.sep[0]?,
                  kvSep := t.sep[1]?, zeroDft := t.zeroDft }], none)

/-- The field loop of the binder (`parseOptions`, `flagrouter.go:461-477`):
fields are bound in declaration order; the first field error aborts the
loop and is returned, leaving the registrations made so far in the engine
state. -/
def parseOptions (hook : ParserHook) (st : List Registration) :
    List StructField → List Registration × Option GoErr
  | [] => (st, none)
  | f :: rest =>
    match parseField hook st f with
    | (st', none) => parseOptions hook st' rest
    | (st', some e) => (st', some e)

/-- The bound options instance `parseOptions` allocates and returns: the
record's fields and whether the callable takes it by pointer. -/
structure BoundInst where
  fields : List StructField
  isPtr : Bool

/-! ## Reflect-level type model for the signature resolver -/

/-- The `reflect.Type` model the resolver inspects: the execution-context
interface, function types (with the defining name of a named function
type, its parameter types and result count), struct and pointer types,
and a basic kind for everything else.  Named Go types carry their fully
qualified name, so structural equality of this model is Go type
identity. -/
inductive GoRType where
  | ctxTy
  | funcTy (name : Option String) (params : List GoRType) (numOut : Nat)
  | strct (fields : List StructField)
  | ptr (elem : GoRType)
  | basic (t : GoTy)

/-- Identity with `typEmptyFunc` (`reflect.TypeOf(func() {})`,
an unnamed `func()`). -/
def isTypEmptyFunc : GoRType → Bool
  | .funcTy none [] 0 => true
  | _ => false

/-- Identity with `typHandler` (the named type `flags.Handler`, underlying
`func(context.Context)`). -/
def isTypHandler : GoRType → Bool
  | .funcTy (some n) [.ctxTy] 0 => n == "flags.Handler"
  | _ => false

/-- Identity with `typHandlerFunc` (the unnamed `func(context.Context)`). -/
def isTypHandlerFunc : GoRType → Bool
  | .funcTy none [.ctxTy] 0 => true
  | _ => false

/-- Identity with `typMiddleware` (the named type `flags.Middleware`,
underlying `func(context.Context, flags.Handler)`). -/
def isTypMiddleware : GoRType → Bool
  | .funcTy (some n) [.ctxTy, .funcTy (some h) [.ctxTy] 0] 0 =>
    n == "flags.Middleware" && h == "flags.Handler"
  | _ => false

/-- Identity with `typMiddlewareFunc` (the unnamed
`func(context.Context, flags.Handler)`). -/
def isTypMiddlewareFunc : GoRType → Bool
  | .funcTy none [.ctxTy, .funcTy (some h) [.ctxTy] 0] 0 => h == "flags.Handler"
  | _ => false

/-- `ConvertibleTo(typEmptyFunc)`: func types are convertible exactly when
their underlying types are identical, so any (named or unnamed) `func()`
with no results qualifies. -/
def isEmptyFuncLike : GoRType → Bool
  | .funcTy _ [] 0 => true
  | _ => false

/-- `ConvertibleTo(typHandler)`: any func type with underlying
`func(context.Context)`. -/
def isHandlerLike : GoRType → Bool
  | .funcTy _ [.ctxTy] 0 => true
  | _ => false

/-- `ConvertibleTo(typMiddleware)`: any func type with underlying
`func(context.Context, flags.Handler)` — the second parameter is compared
by type identity, so it must be `flags.Handler` itself. -/
def isMiddlewareLike : GoRType → Bool
  | .funcTy _ [.ctxTy, .funcTy (some h) [.ctxTy] 0] 0 => h == "flags.Handler"
  | _ => false

/-- `Kind() == reflect.Func`. -/
def isFuncKind : GoRType → Bool
  | .funcTy _ _ _ => true
  | _ => false

/-- Identity with `typContext` (`context.Context`). -/
def isCtxTy : GoRType → Bool
  | .ctxTy => true
  | _ => false

/-! ## Wrapper semantics: invocation traces -/

set_option genSizeOfSpec false in
mutual
/-- An observable event of running a produced wrapper: either the
underlying callable was invoked (with the given arguments), or the
chain's continuation was invoked with the given context value. -/
inductive MwEvent (Ctx : Type) where
  | invoked : List (MwArg Ctx) → MwEvent Ctx
  | nextCalled : Ctx → MwEvent Ctx

/-- An argument the wrapper passes to the underlying callable: the live
context, the bound options instance captured at registration time, or one
of the continuation closures the resolver builds (`func() { handler(ctx) }`
or the continuation itself), carried by its run-trace semantics. -/
inductive MwArg (Ctx : Type) where
  | ctxA : Ctx → MwArg Ctx
  | optA : BoundInst → MwArg Ctx
  | emptyClosure : (Unit → List (MwEvent Ctx)) → MwArg Ctx
  | ctxClosure : (Ctx → List (MwEvent Ctx)) → MwArg Ctx
end

/-- A normalized middleware wrapper (`flags.Middleware` contract): given
the live context and the continuation's trace semantics, the trace of one
traversal. -/
def Mw (Ctx : Type) : Type :=
  Ctx → (Ctx → List (MwEvent Ctx)) → List (MwEvent Ctx)

/-- A normalized handler wrapper (`flags.Handler` contract). -/
def Hd (Ctx : Type) : Type :=
  Ctx → List (MwEvent Ctx)

/-- The behavior of the opaque callable being registered: the trace its
body produces when invoked with the given arguments (`function.Call`). -/
def Callee (Ctx : Type) : Type :=
  List (MwArg Ctx) → List (MwEvent Ctx)

/-- Outcome of a resolution: a wrapper, a registration error, or a
`reflect` panic. -/
inductive Res (α : Type) where
  | ok (a : α)
  | err (e : GoErr)
  | panics

/-- Applies a resolved middleware wrapper; `none` when resolution did not
produce a wrapper. -/
def mwApply {Ctx : Type} : Res (Mw Ctx) → Ctx → (Ctx → List (MwEvent Ctx)) →
    Option (List (MwEvent Ctx))
  | .ok w, c, next => some (w c next)
  | _, _, _ => none

/-- Applies a resolved handler wrapper. -/
def hdApply {Ctx : Type} : Res (Hd Ctx) → Ctx → Option (List (MwEvent Ctx))
  | .ok w, c => some (w c)
  | _, _ => none

/-! ## The argument binder entry (`parseFuncArgs`, `flagrouter.go:444-454`) -/

/-- `parseFuncArgs`: unwraps one pointer level, requires a struct type,
and runs the binder over its fields, producing the bound instance the
wrapper will capture.  The engine state is threaded; on a field error the
registrations made before the failure remain. -/
def parseFuncArgs (hook : ParserHook) (st : List Registration) (arg : GoRType)
    (who : String) : List Registration × Except GoErr BoundInst :=
  let p : Bool × GoRType :=
    match arg with
    | .ptr e => (true, e)
    | a => (false, a)
  match p.2 with
  | .strct fields =>
    match parseOptions hook st fields with
    | (st', none) => (st', .ok ⟨fields, p.1⟩)
    | (st', some e) => (st', .error e)
  | _ => (st, .error (.argNotStruct who))

/-! ## The middleware resolver (`parseMiddleware`/`parseMiddlewareFast`,
`flagrouter.go:174-355`) -/

/-- The fast path (`parseMiddlewareFast`, `flagrouter.go:303-355`): exact
type identity with the five canonical types, then convertibility.
Returns `none` to fall through to the slow path (the source's
`nil, nil`). -/
def parseMiddlewareFast {Ctx : Type} (t : GoRType) (onInvoke : Callee Ctx) :
    Option (Mw Ctx) :=
  if isTypEmptyFunc t then
    some (fun ctx next => onInvoke [] ++ next ctx)
  else if isTypHandler t then
    some (fun ctx next => onInvoke [.ctxA ctx] ++ next ctx)
  else if isTypHandlerFunc t then
    some (fun ctx next => onInvoke [.ctxA ctx] ++ next ctx)
  else if isTypMiddleware t then
    some (fun ctx next => onInvoke [.ctxA ctx, .ctxClosure next])
  else if isTypMiddlewareFunc t then
    some (fun ctx next => onInvoke [.ctxA ctx, .ctxClosure next])
  else if isEmptyFuncLike t then
    some (fun ctx next => onInvoke [] ++ next ctx)
  else if isHandlerLike t then
    some (fun ctx next => onInvoke [.ctxA ctx] ++ next ctx)
  else if isMiddlewareLike t then
    some (fun ctx next => onInvoke [.ctxA ctx, .ctxClosure next])
  else none

/-- The middleware resolver (`parseMiddleware`, `flagrouter.go:174-301`):
fast path first, then the arity-directed slow path.  Note the slow path's
arity-2 context branch passes `arg0` — the context type, not the options
record type `arg1` — to `parseFuncArgs` (`flagrouter.go:244`), so the
`func(context.Context, arg)` shapes always fail with the
"arg must be a struct" error. -/
def parseMiddleware {Ctx : Type} (hook : ParserHook) (st : List Registration)
    (t : GoRType) (onInvoke : Callee Ctx) : List Registration × Res (Mw Ctx) :=
  match parseMiddlewareFast t onInvoke with
  | some m => (st, .ok m)
  | none =>
    match t with
    | .funcTy _ params numOut =>
      if numOut ≠ 0 then (st, .err .mwReturns)
      else if params.length > 3 then (st, .err .mwTooManyArgs)
      else
        match params with
        | [] => (st, .ok (fun ctx next => onInvoke [] ++ next ctx))
        | [arg0] =>
          if isTypEmptyFunc arg0 || isEmptyFuncLike arg0 then
            (st, .ok (fun ctx next =>
              onInvoke [.emptyClosure (fun _ => next ctx)]))
          else
            match parseFuncArgs hook st arg0 "middleware" with
            | (st', .error e) => (st', .err e)
            | (st', .ok inst) =>
              (st', .ok (fun ctx next => onInvoke [.optA inst] ++ next ctx))
        | [arg0, arg1] =>
          if isCtxTy arg0 then
            if isTypEmptyFunc arg1 || isEmptyFuncLike arg1 then
              (st, .ok (fun ctx next =>
                onInvoke [.ctxA ctx, .emptyClosure (fun _ => next ctx)]))
            else if isTypHandler arg1 || isHandlerLike arg1 then
              (st, .ok (fun ctx next => onInvoke [.ctxA ctx, .ctxClosure next]))
            else
              -- source line 244: parseFuncArgs receives arg0, the context type
              match parseFuncArgs hook st arg0 "middleware" with
              | (st', .error e) => (st', .err e)
              | (st', .ok inst) =>
                (st', .ok (fun ctx next =>
                  onInvoke [.ctxA ctx, .optA inst] ++ next ctx))
          else
            if !isEmptyFuncLike arg1 then (st, .err .mwBadHandlerArg)
            else
              match parseFuncArgs hook st arg0 "middleware" with
              | (st', .error e) => (st', .err e)
              | (st', .ok inst) =>
                (st', .ok (fun ctx next =>
                  onInvoke [.optA inst, .emptyClosure (fun _ => next ctx)]))
        | arg0 :: arg1 :: arg2 :: _ =>
          if !isCtxTy arg0 then (st, .err .mwFirstNotCtx)
          else if !(isEmptyFuncLike arg2 || isHandlerLike arg2) then
            (st, .err .mwThirdBad)
          else
            match parseFuncArgs hook st arg1 "middleware" with
            | (st', .error e) => (st', .err e)
            | (st', .ok inst) =>
              if isEmptyFuncLike arg2 then
                (st', .ok (fun ctx next =>
                  onInvoke [.ctxA ctx, .optA inst,
                            .emptyClosure (fun _ => next ctx)]))
              else
                (st', .ok (fun ctx next =>
                  onInvoke [.ctxA ctx, .optA inst, .ctxClosure next]))
    | _ => (st, .err .mwNotFunc)

/-! ## The handler resolver (`parseFunc`/`parseFuncFast`,
`flagrouter.go:368-442`) -/

/-- The fast path (`parseFuncFast`, `flagrouter.go:420-442`).  The
convertible-to-`flags.Handler` branch (source line 438) converts the
callable to `typEmptyFunc` — not `typHandler` — before asserting
`flags.Handler`; a `func(context.Context)` value is not convertible to
`func()`, so `reflect.Value.Convert` panics there. -/
def parseFuncFast {Ctx : Type} (t : GoRType) (onInvoke : Callee Ctx) :
    Option (Res (Hd Ctx)) :=
  if isTypEmptyFunc t then some (.ok (fun _ => onInvoke []))
  else if isTypHandler t then some (.ok (fun ctx => onInvoke [.ctxA ctx]))
  else if isTypHandlerFunc t then some (.ok (fun ctx => onInvoke [.ctxA ctx]))
  else if isEmptyFuncLike t then some (.ok (fun _ => onInvoke []))
  else if isHandlerLike t then some .panics
  else none

/-- The handler resolver (`parseFunc`, `flagrouter.go:368-418`). -/
def parseFunc {Ctx : Type} (hook : ParserHook) (st : List Registration)
    (t : GoRType) (onInvoke : Callee Ctx) : List Registration × Res (Hd Ctx) :=
  match parseFuncFast t onInvoke with
  | some r => (st, r)
  | none =>
    match t with
    | .funcTy _ params numOut =>
      if numOut ≠ 0 then (st, .err .hReturns)
      else if params.length > 2 then (st, .err .hTooManyArgs)
      else
        match params with
        | [] => (st, .ok (fun _ => onInvoke []))
        | [arg0] =>
          match parseFuncArgs hook st arg0 "handler" with
          | (st', .error e) => (st', .err e)
          | (st', .ok inst) => (st', .ok (fun _ => onInvoke [.optA inst]))
        | arg0 :: arg1 :: _ =>
          if !isCtxTy arg0 then (st, .err .hFirstNotCtx)
          else
            match parseFuncArgs hook st arg1 "handler" with
            | (st', .error e) => (st', .err e)
            | (st', .ok inst) =>
              (st', .ok (fun ctx => onInvoke [.ctxA ctx, .optA inst]))
    | _ => (st, .err .hNotFunc)

/-! ## Concrete sample data used by witnesses and counterexamples -/

/-- A well-formed options field: `A int` annotated
`short:"a" long:"all" dft:"123"`. -/
def sampleField : StructField :=
  { name := "A", exported := true, typ := .int 64,
    tagShort := "a", tagLong := "all", tagDft := some "123" }

/-- The registration `sampleField` produces. -/
def sampleReg : Registration :=
  { fieldName := "A", short := 97, long := "all", dft := some (.intV 123),
    desc := "", sliceSep := none, kvSep := none, zeroDft := true }

/-- An options field whose short annotation `"xy"` is two characters
long. -/
def badShortField : StructField :=
  { name := "B", exported := true, typ := .int 64, tagShort := "xy" }

/-- An exported field with neither identifier whose default literal
`"abc"` does not parse as its integer type. -/
def noIdBadDftField : StructField :=
  { name := "C", exported := true, typ := .int 64, tagDft := some "abc" }

/-- An exported field with neither identifier and a well-formed default
literal. -/
def noIdGoodDftField : StructField :=
  { name := "D", exported := true, typ := .int 64, tagDft := some "7" }

/-- An unexported field (with annotations that would fail if parsed). -/
def unexportedField : StructField :=
  { name := "e", exported := false, typ := .int 64,
    tagShort := "way-too-long", tagDft := some "not-a-number" }

/-- A signed integer field of declared width `w` with default literal
`lit`, annotated `short:"n"`. -/
def intField (w : Nat) (lit : String) : StructField :=
  { name := "N", exported := true, typ := .int w,
    tagShort := "n", tagDft := some lit }

/-- An unsigned integer field of declared width `w` with default literal
`lit`, annotated `short:"u"`. -/
def uintField (w : Nat) (lit : String) : StructField :=
  { name := "U", exported := true, typ := .uint w,
    tagShort := "u", tagDft := some lit }

/-- The canonical observer for a registered callable: records one
`invoked` event carrying the arguments it received. -/
def obsInvoke : Callee Nat := fun args => [.invoked args]

/-- The canonical observer for the chain continuation: records one
`nextCalled` event carrying the context it received. -/
def obsNext : Nat → List (MwEvent Nat) := fun c => [.nextCalled c]

/-- A hook environment in which the duration type implements the
parse-from-text capability, returning the raw literal as a string
value — observably different from every built-in rule. -/
def sampleHook : ParserHook := fun t =>
  match t with
  | .duration => some (fun s => .ok (.strV s))
  | _ => none

/-! ## Claim theorems -/

/-- **C1.** For every middleware callable that returns nothing and takes
exactly two parameters, the first of the execution-context type and the
second a struct options record (by value or by pointer), the claim says
signature resolution succeeds (shape M2-ctx-opt).  The code instead
passes the *first* parameter's type — the context type — to the options
binder (`flagrouter.go:244`), so resolution of every such callable fails
with the "middleware func arg must be a struct" error, contradicting the
shape table and the source's own doc comment listing
`func(context.Context, arg)` as supported. -/
theorem c1_ctx_opt_middleware_always_rejected {Ctx : Type} (hook : ParserHook)
    (st : List Registration) (onInvoke : Callee Ctx) (nm : Option String)
    (fields : List StructField) :
    parseMiddleware hook st (.funcTy nm [.ctxTy, .strct fields] 0) onInvoke
      = (st, .err (.argNotStruct "middleware"))
    ∧ parseMiddleware hook st (.funcTy nm [.ctxTy, .ptr (.strct fields)] 0) onInvoke
      = (st, .err (.argNotStruct "middleware")) := by
  cases nm <;> exact ⟨rfl, rfl⟩

/-- **C5.** Coercing a default literal against a map type whose value
type is a list accumulates repeated keys: with default separators,
`"a:1,a:2,a:3,b:4,b:5,b:6"` against a string-to-integer-list map yields
exactly `{a:[1,2,3], b:[4,5,6]}`, and in general each repeated
`key:value` store appends to the list already held under that key
(`flagrouter.go:629-637`). -/
theorem c5_map_of_lists_accumulates :
    parseDefault noHook (.mapTy .stringTy (.slice (.int 64)))
        "a:1,a:2,a:3,b:4,b:5,b:6" []
      = .ok (.mapV [(.strV "a", .listV [.intV 1, .intV 2, .intV 3]),
                    (.strV "b", .listV [.intV 4, .intV 5, .intV 6])])
    ∧ ∀ (vt : GoTy) (m : List (GoVal × GoVal)) (k v ori : GoVal),
        isSliceKind vt = true → mapLook m k = some ori →
        mapDefaultStep vt m k v = mapSet m k (appendSliceVal ori v) := by
  refine ⟨rfl, ?_⟩
  intro vt m k v ori hs hl
  simp [mapDefaultStep, hs, hl]

/-- Witness for C5: storing `[2]` under the already-present key `"a"`
(held list `[1]`) appends rather than overwrites. -/
theorem c5_map_of_lists_accumulates_witness :
    mapDefaultStep (.slice (.int 64)) [(.strV "a", .listV [.intV 1])]
        (.strV "a") (.listV [.intV 2])
      = mapSet [(.strV "a", .listV [.intV 1])] (.strV "a")
          (appendSliceVal (.listV [.intV 1]) (.listV [.intV 2])) :=
  c5_map_of_lists_accumulates.2 (.slice (.int 64))
    [(.strV "a", .listV [.intV 1])] (.strV "a") (.listV [.intV 2])
    (.listV [.intV 1]) rfl rfl

/-- **C6.** Coercing a default literal against a list type whose element
type is a map splits on the outer-list separator — `;` by default,
overridable by the third separator annotation — rather than the ordinary
list separator (`flagrouter.go:587-592`): with default separators
`"a:1,b:2,c:3;x:7,y:8,z:9"` against a list of string-to-integer maps
yields exactly `[{a:1,b:2,c:3}, {x:7,y:8,z:9}]`, and with overrides
`| = #` the literal `"a=1|b=2#c=3"` splits on `#` into two maps. -/
theorem c6_list_of_maps_outer_separator :
    parseDefault noHook (.slice (.mapTy .stringTy (.int 64)))
        "a:1,b:2,c:3;x:7,y:8,z:9" []
      = .ok (.listV
          [.mapV [(.strV "a", .intV 1), (.strV "b", .intV 2), (.strV "c", .intV 3)],
           .mapV [(.strV "x", .intV 7), (.strV "y", .intV 8), (.strV "z", .intV 9)]])
    ∧ parseDefault noHook (.slice (.mapTy .stringTy (.int 64)))
        "a=1|b=2#c=3" ["|", "=", "#"]
      = .ok (.listV
          [.mapV [(.strV "a", .intV 1), (.strV "b", .intV 2)],
           .mapV [(.strV "c", .intV 3)]]) :=
  ⟨rfl, rfl⟩

/-- When the declared type provides the parse-from-text hook, coercion
delegates to it (the first branch of `parseDefault`). -/
theorem parseDefault_hook_delegates (hook : ParserHook) (t : GoTy)
    (p : String → Except GoErr GoVal) (hp : hook t = some p)
    (dft : String) (sep : List String) :
    parseDefault hook t dft sep = p dft := by
  cases t <;> (delta parseDefault; conv_lhs => whnf) <;> rw [hp]

/-- Unfolding equation of `parseDefault` at an integer kind without a
hook. -/
theorem parseDefault_int_eq (hook : ParserHook) (w : Nat) (dft : String)
    (sep : List String) (hn : hook (.int w) = none) :
    parseDefault hook (.int w) dft sep = (parseInt64 dft).map GoVal.intV := by
  delta parseDefault
  conv_lhs => whnf
  rw [hn]

/-- Unfolding equation of `parseDefault` at an unsigned kind without a
hook. -/
theorem parseDefault_uint_eq (hook : ParserHook) (w : Nat) (dft : String)
    (sep : List String) (hn : hook (.uint w) = none) :
    parseDefault hook (.uint w) dft sep = (parseUint64 dft).map GoVal.uintV := by
  delta parseDefault
  conv_lhs => whnf
  rw [hn]

/-- Unfolding equation of `parseDefault` at a float kind without a hook. -/
theorem parseDefault_float_eq (hook : ParserHook) (w : Nat) (dft : String)
    (sep : List String) (hn : hook (.float w) = none) :
    parseDefault hook (.float w) dft sep = parseFloat64 dft := by
  delta parseDefault
  conv_lhs => whnf
  rw [hn]

/-- Unfolding equation of `parseDefault` at the boolean kind without a
hook. -/
theorem parseDefault_bool_eq (hook : ParserHook) (dft : String)
    (sep : List String) (hn : hook .boolTy = none) :
    parseDefault hook .boolTy dft sep = (parseGoBool dft).map GoVal.boolV := by
  delta parseDefault
  conv_lhs => whnf
  rw [hn]

/-- Unfolding equation of `parseDefault` at the string kind without a
hook. -/
theorem parseDefault_string_eq (hook : ParserHook) (dft : String)
    (sep : List String) (hn : hook .stringTy = none) :
    parseDefault hook .stringTy dft sep = .ok (.strV dft) := by
  delta parseDefault
  conv_lhs => whnf
  rw [hn]

/-- Unfolding equation of `parseDefault` at the duration type without a
hook. -/
theorem parseDefault_duration_eq (hook : ParserHook) (dft : String)
    (sep : List String) (hn : hook .duration = none) :
    parseDefault hook .duration dft sep = parseGoDuration dft := by
  delta parseDefault
  conv_lhs => whnf
  rw [hn]

/-- Unfolding equation of `parseDefault` at the date-time type without a
hook. -/
theorem parseDefault_datetime_eq (hook : ParserHook) (dft : String)
    (sep : List String) (hn : hook .datetime = none) :
    parseDefault hook .datetime dft sep = parseGoDateTime dft := by
  delta parseDefault
  conv_lhs => whnf
  rw [hn]

/-- Unfolding equation of `parseDefault` at an unsupported kind without a
hook. -/
theorem parseDefault_other_eq (hook : ParserHook) (dft : String)
    (sep : List String) (hn : hook .otherKind = none) :
    parseDefault hook .otherKind dft sep = .error (.unsupportedTy .otherKind) := by
  delta parseDefault
  conv_lhs => whnf
  rw [hn]

/-- Unfolding equation of `parseDefault` at a slice kind without a hook. -/
theorem parseDefault_slice_eq (hook : ParserHook) (elemTyp : GoTy)
    (dft : String) (sep : List String) (hn : hook (.slice elemTyp) = none) :
    parseDefault hook (.slice elemTyp) dft sep =
      ((goSplit dft
          (if isMapKind elemTyp then pickSep sep 2 ";" else pickSep sep 0 ",")).mapM
        (fun elem => (parseDefault hook elemTyp (goTrim elem) sep).map
          (fun v => convertVal v elemTyp))).map GoVal.listV := by
  delta parseDefault
  conv_lhs => whnf
  rw [hn]

/-- Unfolding equation of `parseDefault` at a map kind without a hook. -/
theorem parseDefault_map_eq (hook : ParserHook) (kt vt : GoTy)
    (dft : String) (sep : List String) (hn : hook (.mapTy kt vt) = none) :
    parseDefault hook (.mapTy kt vt) dft sep =
      ((goSplit dft (pickSep sep 0 ",")).foldlM (fun m elem =>
          match goSplit elem (pickSep sep 1 ":") with
          | [k0, v0] => do
            let key ← parseDefault hook kt (goTrim k0) sep
            let val ← parseDefault hook vt (goTrim v0) sep
            pure (mapDefaultStep vt m (convertVal key kt) (convertVal val vt))
          | _ => .error (.malformedKeyValue elem))
        ([] : List (GoVal × GoVal))).map GoVal.mapV := by
  delta parseDefault
  conv_lhs => whnf
  rw [hn]

/-- Every `parseInt64` failure is the malformed-default error for its
literal. -/
theorem parseInt64_err {s : String} {e : GoErr}
    (h : parseInt64 s = .error e) : e = .malformedDefault s := by
  unfold parseInt64 at h
  dsimp only at h
  repeat' split at h
  all_goals simp_all

/-- Every `parseUint64` failure is the malformed-default error for its
literal. -/
theorem parseUint64_err {s : String} {e : GoErr}
    (h : parseUint64 s = .error e) : e = .malformedDefault s := by
  unfold parseUint64 at h
  repeat' split at h
  all_goals simp_all

/-- Every `parseGoBool` failure is the malformed-default error for its
literal. -/
theorem parseGoBool_err {s : String} {e : GoErr}
    (h : parseGoBool s = .error e) : e = .malformedDefault s := by
  unfold parseGoBool at h
  repeat' split at h
  all_goals simp_all

/-- Every `parseFloat64` failure is the malformed-default error for its
literal. -/
theorem parseFloat64_err {s : String} {e : GoErr}
    (h : parseFloat64 s = .error e) : e = .malformedDefault s := by
  unfold parseFloat64 at h
  dsimp only at h
  repeat' split at h
  all_goals simp_all

/-- Every `parseGoDuration` failure is the malformed-default error for
its literal. -/
theorem parseGoDuration_err {s : String} {e : GoErr}
    (h : parseGoDuration s = .error e) : e = .malformedDefault s := by
  unfold parseGoDuration at h
  dsimp only at h
  repeat' split at h
  all_goals simp_all

/-- Every `parseGoDateTime` failure is the malformed-default error for
its literal. -/
theorem parseGoDateTime_err {s : String} {e : GoErr}
    (h : parseGoDateTime s = .error e) : e = .malformedDefault s := by
  unfold parseGoDateTime at h
  repeat' split at h
  all_goals simp_all

/-- A failing `Except.map` means the underlying computation failed with
the same error. -/
theorem map_err_eq {β γ : Type} (f : β → γ) (x : Except GoErr β) (e : GoErr)
    (h : x.map f = .error e) : x = .error e := by
  cases x <;> simp_all [Except.map]

/-- If mapping a fallible function over a list fails, some element fails
with that error. -/
theorem mapM_except_err {α β : Type} (f : α → Except GoErr β) (l : List α)
    (e : GoErr) (h : l.mapM f = .error e) : ∃ a ∈ l, f a = .error e := by
  induction l with
  | nil => exact Except.noConfusion h
  | cons a l ih =>
    rw [List.mapM_cons] at h
    cases hf : f a with
    | error e1 =>
      rw [hf] at h
      have h2 : (Except.error e1 : Except GoErr (List β)) = .error e := h
      injection h2 with he
      subst he
      exact ⟨a, List.mem_cons_self a l, hf⟩
    | ok b =>
      rw [hf] at h
      have h2 : (l.mapM f >>= fun xs => pure (b :: xs)) = .error e := h
      cases hm : l.mapM f with
      | error e2 =>
        rw [hm] at h2
        have h3 : (Except.error e2 : Except GoErr (List β)) = .error e := h2
        injection h3 with he
        subst he
        obtain ⟨x, hx, hfx⟩ := ih hm
        exact ⟨x, List.mem_cons_of_mem a hx, hfx⟩
      | ok xs =>
        rw [hm] at h2
        exact absurd h2 (by simp)

/-- If a fallible left fold over a list fails, the step function fails
with that error on some element and some intermediate state. -/
theorem foldlM_except_err {α β : Type} (f : β → α → Except GoErr β)
    (l : List α) (b : β) (e : GoErr) (h : l.foldlM f b = .error e) :
    ∃ a ∈ l, ∃ b', f b' a = .error e := by
  induction l generalizing b with
  | nil => exact Except.noConfusion h
  | cons a l ih =>
    rw [List.foldlM_cons] at h
    cases hf : f b a with
    | error e1 =>
      rw [hf] at h
      have h2 : (Except.error e1 : Except GoErr β) = .error e := h
      injection h2 with he
      subst he
      exact ⟨a, List.mem_cons_self a l, b, hf⟩
    | ok b1 =>
      rw [hf] at h
      have h2 : l.foldlM f b1 = .error e := h
      obtain ⟨x, hx, b', hb'⟩ := ih b1 h2
      exact ⟨x, List.mem_cons_of_mem a hx, b', hb'⟩

/-- Under any hook that never fabricates the invalid-short-tag error, the
default coercion engine never returns that error either: every failure of
`parseDefault` is a malformed-default, malformed-key-value,
unsupported-type, or hook error. -/
theorem parseDefault_ne_invalidShortTag (hook : ParserHook)
    (hh : ∀ t p, hook t = some p → ∀ s e, p s ≠ .error (.invalidShortTag e))
    (t : GoTy) (sep : List String) :
    ∀ dft s : String, parseDefault hook t dft sep ≠ .error (.invalidShortTag s) := by
  induction t with
  | int w =>
    intro dft s h
    cases hk : hook (.int w) with
    | some p =>
      exact hh _ p hk dft s ((parseDefault_hook_delegates hook _ p hk dft sep) ▸ h)
    | none =>
      rw [parseDefault_int_eq hook w dft sep hk] at h
      have h3 := parseInt64_err (map_err_eq _ _ _ h)
      simp at h3
  | uint w =>
    intro dft s h
    cases hk : hook (.uint w) with
    | some p =>
      exact hh _ p hk dft s ((parseDefault_hook_delegates hook _ p hk dft sep) ▸ h)
    | none =>
      rw [parseDefault_uint_eq hook w dft sep hk] at h
      have h3 := parseUint64_err (map_err_eq _ _ _ h)
      simp at h3
  | float w =>
    intro dft s h
    cases hk : hook (.float w) with
    | some p =>
      exact hh _ p hk dft s ((parseDefault_hook_delegates hook _ p hk dft sep) ▸ h)
    | none =>
      rw [parseDefault_float_eq hook w dft sep hk] at h
      have h3 := parseFloat64_err h
      simp at h3
  | boolTy =>
    intro dft s h
    cases hk : hook .boolTy with
    | some p =>
      exact hh _ p hk dft s ((parseDefault_hook_delegates hook _ p hk dft sep) ▸ h)
    | none =>
      rw [parseDefault_bool_eq hook dft sep hk] at h
      have h3 := parseGoBool_err (map_err_eq _ _ _ h)
      simp at h3
  | stringTy =>
    intro dft s h
    cases hk : hook .stringTy with
    | some p =>
      exact hh _ p hk dft s ((parseDefault_hook_delegates hook _ p hk dft sep) ▸ h)
    | none =>
      rw [parseDefault_string_eq hook dft sep hk] at h
      exact absurd h (by simp)
  | duration =>
    intro dft s h
    cases hk : hook .duration with
    | some p =>
      exact hh _ p hk dft s ((parseDefault_hook_delegates hook _ p hk dft sep) ▸ h)
    | none =>
      rw [parseDefault_duration_eq hook dft sep hk] at h
      have h3 := parseGoDuration_err h
      simp at h3
  | datetime =>
    intro dft s h
    cases hk : hook .datetime with
    | some p =>
      exact hh _ p hk dft s ((parseDefault_hook_delegates hook _ p hk dft sep) ▸ h)
    | none =>
      rw [parseDefault_datetime_eq hook dft sep hk] at h
      have h3 := parseGoDateTime_err h
      simp at h3
  | otherKind =>
    intro dft s h
    cases hk : hook .otherKind with
    | some p =>
      exact hh _ p hk dft s ((parseDefault_hook_delegates hook _ p hk dft sep) ▸ h)
    | none =>
      rw [parseDefault_other_eq hook dft sep hk] at h
      injection h with he
      simp at he
  | slice elemTyp ih =>
    intro dft s h
    cases hk : hook (.slice elemTyp) with
    | some p =>
      exact hh _ p hk dft s ((parseDefault_hook_delegates hook _ p hk dft sep) ▸ h)
    | none =>
      rw [parseDefault_slice_eq hook elemTyp dft sep hk] at h
      obtain ⟨elem, _, helem⟩ := mapM_except_err _ _ _ (map_err_eq _ _ _ h)
      exact ih (goTrim elem) s (map_err_eq _ _ _ helem)
  | mapTy kt vt ihk ihv =>
    intro dft s h
    cases hk : hook (.mapTy kt vt) with
    | some p =>
      exact hh _ p hk dft s ((parseDefault_hook_delegates hook _ p hk dft sep) ▸ h)
    | none =>
      rw [parseDefault_map_eq hook kt vt dft sep hk] at h
      obtain ⟨elem, _, m, hstep⟩ := foldlM_except_err _ _ _ _ (map_err_eq _ _ _ h)
      split at hstep
      · rename_i x k0 v0 heq
        cases hkey : parseDefault hook kt (goTrim k0) sep with
        | error e1 =>
          rw [hkey] at hstep
          have h2 : (Except.error e1 : Except GoErr (List (GoVal × GoVal)))
              = .error (.invalidShortTag s) := hstep
          injection h2 with he
          subst he
          exact ihk (goTrim k0) s hkey
        | ok kv =>
          rw [hkey] at hstep
          cases hval : parseDefault hook vt (goTrim v0) sep with
          | error e2 =>
            rw [hval] at hstep
            have h2 : (Except.error e2 : Except GoErr (List (GoVal × GoVal)))
                = .error (.invalidShortTag s) := hstep
            injection h2 with he
            subst he
            exact ihv (goTrim v0) s hval
          | ok vv =>
            rw [hval] at hstep
            have h2 : (Except.ok (mapDefaultStep vt m (convertVal kv kt) (convertVal vv vt)) :
                Except GoErr (List (GoVal × GoVal))) = .error (.invalidShortTag s) := hstep
            exact Except.noConfusion h2
      · injection hstep with he
        simp at he

/-- The registrations one field adds to an empty engine state. -/
def regsOf (hook : ParserHook) (f : StructField) : List Registration :=
  (parseField hook [] f).1

/-- The error one field's binding produces, if any. -/
def errOf (hook : ParserHook) (f : StructField) : Option GoErr :=
  (parseField hook [] f).2

/-- `parseField` only ever appends to the engine state, and what it
appends and returns depends on the field alone. -/
theorem parseField_decomp (hook : ParserHook) (st : List Registration)
    (f : StructField) :
    parseField hook st f = (st ++ regsOf hook f, errOf hook f) := by
  unfold regsOf errOf
  unfold parseField
  cases f.exported <;> simp
  cases parseTag hook f <;> simp
  split <;> simp

/-- **C2 counterexample.** The claim says a failing field leaves no field
of the record registered with the external engine; but binding the record
`[sampleField, badShortField]` fails on the second field while the first
field's registration, already made by `AnyVar`, remains in the engine
state. -/
theorem c2_counterexample :
    (parseOptions noHook [] [sampleField, badShortField]).2
        = some (.invalidShortTag "xy")
    ∧ (parseOptions noHook [] [sampleField, badShortField]).1 = [sampleReg] :=
  ⟨rfl, rfl⟩

/-- **C2 (amended).** If tag parsing or default coercion fails for a
field, the binder call returns that first failing field's error and
processes no later field; the registrations of the fields preceding the
failing one, however, remain active in the external engine (only the
callable itself is never registered, because the resolver aborts on the
returned error). -/
theorem c2_first_field_error_aborts (hook : ParserHook)
    (st : List Registration) (pre : List StructField) (bad : StructField)
    (rest : List StructField) (e : GoErr)
    (hpre : ∀ f ∈ pre, errOf hook f = none)
    (hbad : errOf hook bad = some e) :
    parseOptions hook st (pre ++ bad :: rest)
      = (st ++ pre.flatMap (regsOf hook) ++ regsOf hook bad, some e) := by
  induction pre generalizing st with
  | nil =>
    simp only [List.nil_append, List.flatMap_nil, List.append_nil]
    unfold parseOptions
    rw [parseField_decomp, hbad]
  | cons f pre ih =>
    have hf : errOf hook f = none := hpre f (List.mem_cons_self f pre)
    have hpre' : ∀ g ∈ pre, errOf hook g = none := fun g hg =>
      hpre g (List.mem_cons_of_mem f hg)
    simp only [List.cons_append]
    unfold parseOptions
    rw [parseField_decomp, hf]
    show parseOptions hook (st ++ regsOf hook f) (pre ++ bad :: rest) = _
    rw [ih (st ++ regsOf hook f) hpre']
    simp [List.append_assoc]

/-- Witness for the amended C2: binding `[sampleField, badShortField,
noIdGoodDftField]` returns the second field's invalid-short-tag error,
keeps the first field's registration, and never processes the third
field. -/
theorem c2_first_field_error_aborts_witness :
    parseOptions noHook [] ([sampleField] ++ badShortField :: [noIdGoodDftField])
      = ([] ++ [sampleField].flatMap (regsOf noHook) ++ regsOf noHook badShortField,
         some (.invalidShortTag "xy")) :=
  c2_first_field_error_aborts noHook [] [sampleField] badShortField
    [noIdGoodDftField] (.invalidShortTag "xy")
    (by intro f hf; simp only [List.mem_singleton] at hf; subst hf; rfl) rfl

/-- **C4 counterexample.** The claim says an exported field whose
annotation carries neither identifier never causes the binder call to
fail, whatever its other annotations contain; but `parseField` runs
`parseTag` — including default coercion — *before* the identifier check
(`flagrouter.go:484-490`), so such a field with the unparsable default
literal `"abc"` fails the binder call. -/
theorem c4_counterexample :
    parseField noHook [] noIdBadDftField = ([], some (.malformedDefault "abc")) :=
  rfl

/-- **C4 (amended).** Unexported fields are skipped silently before any
tag parsing; an exported field whose parsed tag has neither a short nor a
long identifier is skipped silently — never registered and never an
error — provided its tag parsing and default coercion succeed.  (A field
without identifiers whose annotations fail to parse still aborts the
binder call, which is the part of the original claim that does not hold.) -/
theorem c4_identifierless_fields_skipped (hook : ParserHook)
    (st : List Registration) (f : StructField) :
    (f.exported = false → parseField hook st f = (st, none))
    ∧ (∀ t, parseTag hook f = .ok t → t.short = 0 → t.long = "" →
        parseField hook st f = (st, none)) := by
  constructor
  · intro h
    unfold parseField
    rw [h]
    simp
  · intro t ht h0 h1
    unfold parseField
    cases f.exported with
    | false => simp
    | true =>
      rw [ht]
      simp [h0, h1]

/-- Witness for the amended C4: an unexported field (with malformed
annotations) and an exported identifier-less field with a well-formed
default are both skipped without error or registration. -/
theorem c4_identifierless_fields_skipped_witness :
    parseField noHook [] unexportedField = ([], none)
    ∧ parseField noHook [] noIdGoodDftField = ([], none) :=
  ⟨(c4_identifierless_fields_skipped noHook [] unexportedField).1 rfl,
   (c4_identifierless_fields_skipped noHook [] noIdGoodDftField).2
     ⟨0, "", some (.intV 7), true, "", []⟩ rfl rfl rfl⟩

/-- **C10.** Integer default literals — signed *and* unsigned kinds — are
parsed at full 64-bit width (`strconv.ParseInt(dft, 10, 64)` at
`flagrouter.go:567`, `strconv.ParseUint(dft, 10, 64)` at
`flagrouter.go:570`) and only then converted to the field's declared
integer type (`flagrouter.go:491-493`), so a literal exceeding the
declared width does not fail coercion: the registered default is the
parsed value reduced modulo `2^w` (the signed representative for signed
kinds), never an error. -/
theorem c10_int_default_full_width_then_reduced (hook : ParserHook)
    (st : List Registration) (w : Nat) (lit : String) :
    (∀ n : Int, hook (.int w) = none → parseInt64 lit = .ok n →
      parseField hook st (intField w lit)
        = (st ++ [{ fieldName := "N", short := 110, long := "",
                    dft := some (.intV (Int.bmod n (2 ^ w))), desc := "",
                    sliceSep := none, kvSep := none, zeroDft := true }], none)
      ∧ Int.bmod n (2 ^ w) % ((2 ^ w : Nat) : Int) = n % ((2 ^ w : Nat) : Int))
    ∧ (∀ n : Nat, hook (.uint w) = none → parseUint64 lit = .ok n →
      parseField hook st (uintField w lit)
        = (st ++ [{ fieldName := "U", short := 117, long := "",
                    dft := some (.uintV (n % 2 ^ w)), desc := "",
                    sliceSep := none, kvSep := none, zeroDft := true }], none)
      ∧ (n % 2 ^ w) % 2 ^ w = n % 2 ^ w) := by
  constructor
  · intro n hw h
    refine ⟨?_, Int.bmod_emod⟩
    have hlit : lit ≠ "" := by
      intro h0
      rw [h0] at h
      simp [parseInt64, splitSign] at h
    have hpd : parseDefault hook (.int w) lit [] = (parseInt64 lit).map GoVal.intV := by
      delta parseDefault
      conv_lhs => whnf
      rw [hw]
    have htag : parseTag hook (intField w lit)
        = .ok ⟨110, "", some (.intV n), true, "", []⟩ := by
      unfold parseTag intField
      simp +decide [hlit, goTrim, firstCharCode, hpd, h, Except.map]
    unfold parseField
    rw [htag]
    simp +decide [intField, convertVal]
  · intro n hw h
    refine ⟨?_, Nat.mod_mod_of_dvd n dvd_rfl⟩
    have hlit : lit ≠ "" := by
      intro h0
      rw [h0] at h
      simp [parseUint64] at h
    have hpd : parseDefault hook (.uint w) lit [] = (parseUint64 lit).map GoVal.uintV :=
      parseDefault_uint_eq hook w lit [] hw
    have htag : parseTag hook (uintField w lit)
        = .ok ⟨117, "", some (.uintV n), true, "", []⟩ := by
      unfold parseTag uintField
      simp +decide [hlit, goTrim, firstCharCode, hpd, h, Except.map]
    unfold parseField
    rw [htag]
    simp +decide [uintField, convertVal]

/-- Witness for C10: the literal `"300"` against an 8-bit signed field
registers the default `Int.bmod 300 256 = 44` instead of failing, and
against an 8-bit unsigned field registers `300 % 256 = 44` instead of
failing. -/
theorem c10_int_default_full_width_then_reduced_witness :
    (parseField noHook [] (intField 8 "300")
      = ([] ++ [{ fieldName := "N", short := 110, long := "",
                  dft := some (.intV (Int.bmod 300 (2 ^ 8))), desc := "",
                  sliceSep := none, kvSep := none, zeroDft := true }], none)
     ∧ Int.bmod 300 (2 ^ 8) % ((2 ^ 8 : Nat) : Int) = 300 % ((2 ^ 8 : Nat) : Int))
    ∧ (parseField noHook [] (uintField 8 "300")
      = ([] ++ [{ fieldName := "U", short := 117, long := "",
                  dft := some (.uintV (300 % 2 ^ 8)), desc := "",
                  sliceSep := none, kvSep := none, zeroDft := true }], none)
     ∧ (300 % 2 ^ 8) % 2 ^ 8 = 300 % 2 ^ 8) :=
  ⟨(c10_int_default_full_width_then_reduced noHook [] 8 "300").1 300 rfl rfl,
   (c10_int_default_full_width_then_reduced noHook [] 8 "300").2 300 rfl rfl⟩

/-- A successful `parseFuncArgs` call implies the argument type was a
struct or a pointer to a struct, matching the returned bound instance. -/
theorem parseFuncArgs_ok_cases (hook : ParserHook) (st : List Registration)
    (arg : GoRType) (who : String) (st' : List Registration) (inst : BoundInst)
    (h : parseFuncArgs hook st arg who = (st', .ok inst)) :
    (arg = .strct inst.fields ∧ inst.isPtr = false)
    ∨ (arg = .ptr (.strct inst.fields) ∧ inst.isPtr = true) := by
  cases inst with
  | mk ifields iptr =>
    cases arg with
    | strct fields =>
      left
      unfold parseFuncArgs at h
      dsimp only at h
      split at h <;> simp_all
    | ptr e =>
      right
      cases e <;> unfold parseFuncArgs at h <;> dsimp only at h
      case strct fields => split at h <;> simp_all
      all_goals simp_all
    | ctxTy => unfold parseFuncArgs at h; simp_all
    | funcTy nm ps no => unfold parseFuncArgs at h; simp_all
    | basic t => unfold parseFuncArgs at h; simp_all

/-- **C3.** For every handler callable that returns nothing and takes
exactly one parameter of the execution-context type, the claim says
registration succeeds — including named function types whose underlying
type is `func(context.Context)`.  For the unnamed type (and for
`flags.Handler` itself) this holds, but for every *other* named such type
the fast path's convertible-to-`flags.Handler` branch converts the value
to `typEmptyFunc` instead of `typHandler` (`flagrouter.go:438`), a
conversion `reflect` refuses: registration panics instead of succeeding.
The type assertion `.(flags.Handler)` immediately after shows
`Convert(typHandler)` was intended. -/
theorem c3_named_handler_type_panics {Ctx : Type} (hook : ParserHook)
    (st : List Registration) (onInvoke : Callee Ctx) (n : String)
    (hn : n ≠ "flags.Handler") :
    parseFunc hook st (.funcTy (some n) [.ctxTy] 0) onInvoke = (st, .panics)
    ∧ ∀ ctx, hdApply (parseFunc hook st (.funcTy none [.ctxTy] 0) onInvoke).2 ctx
        = some (onInvoke [.ctxA ctx]) := by
  constructor
  · unfold parseFunc parseFuncFast
    simp [isTypEmptyFunc, isTypHandler, isTypHandlerFunc, isEmptyFuncLike,
      isHandlerLike, hn]
  · intro ctx
    rfl

/-- Witness for C3: the named handler type `main.MyHandler` (underlying
`func(context.Context)`) panics at registration, while the unnamed
`func(context.Context)` registers and its wrapper invokes the callable
once with the live context. -/
theorem c3_named_handler_type_panics_witness :
    parseFunc noHook [] (.funcTy (some "main.MyHandler") [.ctxTy] 0) obsInvoke
      = ([], .panics)
    ∧ hdApply (parseFunc noHook [] (.funcTy none [.ctxTy] 0) obsInvoke).2 0
        = some (obsInvoke [.ctxA 0]) :=
  ⟨(c3_named_handler_type_panics noHook [] obsInvoke "main.MyHandler"
      (by decide)).1,
   (c3_named_handler_type_panics noHook [] obsInvoke "main.MyHandler"
      (by decide)).2 0⟩

/-- **C8.** For every middleware of a shape without a continuation
parameter other than M2-ctx-opt — M0 (`func()`), M1-ctx
(`func(context.Context)`), M1-opt (`func(arg)`/`func(*arg)`), named or
unnamed — the produced wrapper invokes the underlying callable exactly
once (with the live context and/or the bound instance as the shape
requires) and then invokes the continuation exactly once, unconditionally,
with the same execution-context value the wrapper received
(`flagrouter.go:303-347,203-219`). -/
theorem c8_shapes_without_continuation {Ctx : Type} (hook : ParserHook)
    (st : List Registration) (onInvoke : Callee Ctx) :
    (∀ nm : Option String,
        (parseMiddleware hook st (.funcTy nm [] 0) onInvoke).1 = st
        ∧ ∀ (ctx : Ctx) (next : Ctx → List (MwEvent Ctx)),
            mwApply (parseMiddleware hook st (.funcTy nm [] 0) onInvoke).2 ctx next
              = some (onInvoke [] ++ next ctx))
    ∧ (∀ nm : Option String,
        (parseMiddleware hook st (.funcTy nm [.ctxTy] 0) onInvoke).1 = st
        ∧ ∀ (ctx : Ctx) (next : Ctx → List (MwEvent Ctx)),
            mwApply (parseMiddleware hook st (.funcTy nm [.ctxTy] 0) onInvoke).2 ctx next
              = some (onInvoke [.ctxA ctx] ++ next ctx))
    ∧ (∀ (nm : Option String) (argTy : GoRType) (st' : List Registration)
          (inst : BoundInst),
        parseFuncArgs hook st argTy "middleware" = (st', .ok inst) →
        (parseMiddleware hook st (.funcTy nm [argTy] 0) onInvoke).1 = st'
        ∧ ∀ (ctx : Ctx) (next : Ctx → List (MwEvent Ctx)),
            mwApply (parseMiddleware hook st (.funcTy nm [argTy] 0) onInvoke).2 ctx next
              = some (onInvoke [.optA inst] ++ next ctx)) := by
  refine ⟨?_, ?_, ?_⟩
  · intro nm
    cases nm <;> exact ⟨rfl, fun ctx next => rfl⟩
  · intro nm
    cases nm with
    | none => exact ⟨rfl, fun ctx next => rfl⟩
    | some s =>
      by_cases hs : s = "flags.Handler"
      · subst hs
        exact ⟨rfl, fun ctx next => rfl⟩
      · refine ⟨?_, fun ctx next => ?_⟩ <;>
          simp [parseMiddleware, parseMiddlewareFast, mwApply, isTypEmptyFunc,
            isTypHandler, isTypHandlerFunc, isTypMiddleware, isTypMiddlewareFunc,
            isEmptyFuncLike, isHandlerLike, isMiddlewareLike, hs]
  · intro nm argTy st' inst h
    rcases parseFuncArgs_ok_cases hook st argTy "middleware" st' inst h with
      ⟨ha, _⟩ | ⟨ha, _⟩ <;> subst ha <;> cases nm <;>
      constructor <;>
      simp [parseMiddleware, parseMiddlewareFast, mwApply, h, isTypEmptyFunc,
        isTypHandler, isTypHandlerFunc, isTypMiddleware, isTypMiddlewareFunc,
        isEmptyFuncLike, isHandlerLike, isMiddlewareLike, isCtxTy]

/-- Witness for C8 (M1-opt, the hypothesis-bearing conjunct): registering
a middleware `func(arg)` over `[sampleField]` extends the engine state
with the field's registration, and running the wrapper at context `0`
invokes the callable once with the bound instance and then the
continuation once with context `0`. -/
theorem c8_shapes_without_continuation_witness :
    (parseMiddleware noHook [] (.funcTy none [.strct [sampleField]] 0) obsInvoke).1
      = [sampleReg]
    ∧ mwApply (parseMiddleware noHook []
          (.funcTy none [.strct [sampleField]] 0) obsInvoke).2 0 obsNext
        = some (obsInvoke [.optA ⟨[sampleField], false⟩] ++ obsNext 0) :=
  ⟨((c8_shapes_without_continuation noHook [] obsInvoke).2.2 none
      (.strct [sampleField]) [sampleReg] ⟨[sampleField], false⟩ rfl).1,
   ((c8_shapes_without_continuation noHook [] obsInvoke).2.2 none
      (.strct [sampleField]) [sampleReg] ⟨[sampleField], false⟩ rfl).2 0 obsNext⟩

/-- **C7.** Tag parsing fails with the invalid-short-tag error if and
only if the field's short annotation is present and longer than one
character (`flagrouter.go:509-515`); a one-character short annotation
yields that character as the short identifier; an absent or empty short
annotation yields no short identifier (code `0`) and never that error.
The hypothesis about the hook rules out a user parse hook fabricating the
identical error value, which lives outside this code. -/
theorem c7_short_tag_validation (hook : ParserHook) (f : StructField)
    (hh : ∀ t p, hook t = some p → ∀ s e, p s ≠ .error (.invalidShortTag e)) :
    (∀ s, parseTag hook f = .error (.invalidShortTag s) →
        f.tagShort ≠ "" ∧ f.tagShort.length > 1 ∧ s = f.tagShort)
    ∧ (f.tagShort ≠ "" → f.tagShort.length > 1 →
        parseTag hook f = .error (.invalidShortTag f.tagShort))
    ∧ (∀ t, parseTag hook f = .ok t →
        (f.tagShort = "" → t.short = 0)
        ∧ (f.tagShort.length = 1 → t.short = firstCharCode f.tagShort)) := by
  by_cases hcond : f.tagShort ≠ "" ∧ f.tagShort.length > 1
  · refine ⟨?_, fun _ _ => ?_, ?_⟩
    · intro s h
      unfold parseTag at h
      rw [if_pos hcond] at h
      injection h with he
      injection he with hs
      exact ⟨hcond.1, hcond.2, hs.symm⟩
    · unfold parseTag
      rw [if_pos hcond]
    · intro t ht
      unfold parseTag at ht
      rw [if_pos hcond] at ht
      exact Except.noConfusion ht
  · refine ⟨?_, fun h1 h2 => absurd ⟨h1, h2⟩ hcond, ?_⟩
    · intro s h
      unfold parseTag at h
      rw [if_neg hcond] at h
      dsimp only at h
      cases hd : f.tagDft with
      | none =>
        rw [hd] at h
        exact Except.noConfusion h
      | some td =>
        rw [hd] at h
        dsimp only at h
        by_cases ht0 : td = ""
        · rw [if_pos ht0] at h
          exact Except.noConfusion h
        · rw [if_neg ht0] at h
          generalize hsep : (if goTrim f.tagSep = "" then ([] : List String)
            else (goTrim f.tagSep).toList.map (fun c => String.mk [c])) = sepv at h
          cases hpd : parseDefault hook f.typ td sepv with
          | ok v =>
            rw [hpd] at h
            exact Except.noConfusion h
          | error e =>
            rw [hpd] at h
            injection h with he
            rw [he] at hpd
            exact absurd hpd (parseDefault_ne_invalidShortTag hook hh f.typ sepv td s)
    · intro t ht
      unfold parseTag at ht
      rw [if_neg hcond] at ht
      dsimp only at ht
      have hshort : ∀ ht' : (if f.tagShort = "" then 0 else firstCharCode f.tagShort)
            = t.short,
          (f.tagShort = "" → t.short = 0)
          ∧ (f.tagShort.length = 1 → t.short = firstCharCode f.tagShort) := by
        intro ht'
        constructor
        · intro h0
          rw [← ht']
          simp [h0]
        · intro h1
          have hne : f.tagShort ≠ "" := by
            intro h0
            rw [h0] at h1
            simp at h1
          rw [← ht']
          simp [hne]
      cases hd : f.tagDft with
      | none =>
        rw [hd] at ht
        injection ht with he
        exact hshort (congrArg TagInfo.short he)
      | some td =>
        rw [hd] at ht
        dsimp only at ht
        by_cases ht0 : td = ""
        · rw [if_pos ht0] at ht
          injection ht with he
          exact hshort (congrArg TagInfo.short he)
        · rw [if_neg ht0] at ht
          generalize hsep : (if goTrim f.tagSep = "" then ([] : List String)
            else (goTrim f.tagSep).toList.map (fun c => String.mk [c])) = sepv at ht
          cases hpd : parseDefault hook f.typ td sepv with
          | error e =>
            rw [hpd] at ht
            exact Except.noConfusion ht
          | ok v =>
            rw [hpd] at ht
            injection ht with he
            exact hshort (congrArg TagInfo.short he)

/-- Witness for C7: the two-character short annotation `"xy"` fails with
the invalid-short-tag error carrying that annotation. -/
theorem c7_short_tag_validation_witness :
    parseTag noHook badShortField = .error (.invalidShortTag "xy") :=
  (c7_short_tag_validation noHook badShortField
    (fun _ p hp => absurd hp (by simp [noHook]))).2.1 (by decide) (by decide)

/-- **C9.** For every declared field type that exposes the
user-extensible parse-from-text capability, default coercion delegates
entirely to that hook: its result, value or error, is returned as-is, and
no built-in rule (duration, date-time, or structural-kind dispatch) is
applied (`flagrouter.go:546-553`). -/
theorem c9_parser_hook_precedence (hook : ParserHook) (t : GoTy)
    (p : String → Except GoErr GoVal) (hp : hook t = some p)
    (dft : String) (sep : List String) :
    parseDefault hook t dft sep = p dft := by
  cases t <;> (delta parseDefault; conv_lhs => whnf) <;> rw [hp]

/-- Witness for C9: a duration-typed field whose type provides the hook
parses `"5s"` through the hook (yielding the raw string), not through the
built-in duration rule. -/
theorem c9_parser_hook_precedence_witness :
    parseDefault sampleHook .duration "5s" [] = .ok (.strV "5s") :=
  c9_parser_hook_precedence sampleHook .duration _ rfl "5s" []

end Flagrouter
